import Mathlib

set_option maxRecDepth 8000

/-!
Verification of the jobly SQL statement builders.

Shallow embedding of the core statement-building code:
 - `sqlForPartialUpdate` (helpers/sql.js)
 - `Company.findAll` / `Company.update` statement construction (models/company.js)
 - `Job.findAll` / `Job.update` statement construction (models/job.js)

JavaScript objects whose insertion order matters are embedded as association
lists; `undefined`-or-value fields become `Option`; thrown errors become
`Except`.
-/

/-- Runtime values that flow through the builders (strings, numbers used as
integers in this codebase, booleans, null). -/
inductive JSValue where
  | str (s : String)
  | num (n : Int)
  | bool (b : Bool)
  | null
deriving DecidableEq, Repr

/-- Errors from the expressError module that the core raises
(`BadRequestError` is the only one thrown by the builders). -/
inductive ExpressError where
  | badRequestError (msg : String)
deriving DecidableEq, Repr

/-- Character for one decimal digit. -/
def digitChar : Nat → Char
  | 0 => '0'
  | 1 => '1'
  | 2 => '2'
  | 3 => '3'
  | 4 => '4'
  | 5 => '5'
  | 6 => '6'
  | 7 => '7'
  | 8 => '8'
  | _ => '9'

/-- Decimal digits, with a fuel argument so the recursion is structural and
kernel-reducible. -/
def natDigitsAux : Nat → Nat → List Char
  | 0, _ => []
  | fuel + 1, n =>
      if n < 10 then [digitChar n]
      else natDigitsAux fuel (n / 10) ++ [digitChar (n % 10)]

/-- Decimal digits of a natural number, most significant first: the rendering
used by JS template interpolation of a number such as `idx + 1`. -/
def natDigits (n : Nat) : List Char := natDigitsAux (n + 1) n

theorem natDigitsAux_fuel_free : ∀ (f1 : Nat) (n f2 : Nat), n < f1 → n < f2 →
    natDigitsAux f1 n = natDigitsAux f2 n := by
  intro f1
  induction f1 with
  | zero => intro n f2 h1 _; omega
  | succ f1 ih =>
      intro n f2 h1 h2
      match f2 with
      | 0 => omega
      | f2 + 1 =>
          show (if n < 10 then [digitChar n]
                else natDigitsAux f1 (n / 10) ++ [digitChar (n % 10)])
              = (if n < 10 then [digitChar n]
                else natDigitsAux f2 (n / 10) ++ [digitChar (n % 10)])
          by_cases h : n < 10
          · simp [h]
          · have hd : n / 10 < n := Nat.div_lt_self (by omega) (by omega)
            rw [if_neg h, if_neg h, ih (n / 10) f2 (by omega) (by omega)]

theorem natDigits_unfold (n : Nat) :
    natDigits n = if n < 10 then [digitChar n]
      else natDigits (n / 10) ++ [digitChar (n % 10)] := by
  show natDigitsAux (n + 1) n = _
  show (if n < 10 then [digitChar n]
        else natDigitsAux n (n / 10) ++ [digitChar (n % 10)]) = _
  by_cases h : n < 10
  · simp [h]
  · have hd : n / 10 < n := Nat.div_lt_self (by omega) (by omega)
    rw [if_neg h, if_neg h,
      natDigitsAux_fuel_free n (n / 10) (n / 10 + 1) (by omega) (by omega)]
    rfl

/-- Decimal rendering of a natural number as a string. -/
def natStr (n : Nat) : String := String.mk (natDigits n)

/-- JS `String.prototype.toLowerCase()`, written as a character-list map so
that it is kernel-reducible (`String.toLower` recurses on byte positions and
does not reduce). -/
def strLower (s : String) : String := String.mk (s.data.map Char.toLower)

/-- JS `Array.prototype.join(sep)`. -/
def joinWith (sep : String) : List String → String
  | [] => ""
  | [s] => s
  | s :: rest => s ++ sep ++ joinWith sep rest

/-- Column-name resolution `jsToSql[colName] || colName`: a falsy lookup
result (an absent entry, i.e. `undefined`, or the empty string) falls back to
the logical name. -/
def colNameOr (jsToSql : List (String × String)) (colName : String) : String :=
  match jsToSql.lookup colName with
  | some s => if s = "" then colName else s
  | none => colName

/-- SET fragments built by `keys.map((colName, idx) => ...)` in
sqlForPartialUpdate, written as a recursion carrying the running index. -/
def colFrags (jsToSql : List (String × String)) : List String → Nat → List String
  | [], _ => []
  | colName :: rest, idx =>
      ("\"" ++ colNameOr jsToSql colName ++ "\"=$" ++ natStr (idx + 1))
        :: colFrags jsToSql rest (idx + 1)

/-- Embedding of `sqlForPartialUpdate(dataToUpdate, jsToSql)` from
helpers/sql.js: throws BadRequestError("No data") on an empty update object,
otherwise returns the comma-joined SET fragments and the values in key order. -/
def sqlForPartialUpdate (dataToUpdate : List (String × JSValue))
    (jsToSql : List (String × String)) : Except ExpressError (String × List JSValue) :=
  let keys := dataToUpdate.map Prod.fst
  if keys.length = 0 then .error (.badRequestError "No data")
  else
    let cols := colFrags jsToSql keys 0
    .ok (joinWith ", " cols, dataToUpdate.map Prod.snd)

/-- Filter object accepted by Company.findAll; an absent field is JS
`undefined`, embedded as `none`. -/
structure CompanyFilters where
  name : Option String := none
  minEmployees : Option Int := none
  maxEmployees : Option Int := none
deriving DecidableEq, Repr

/-- Base SELECT of Company.findAll (models/company.js). -/
def companyBaseSelect : String :=
  "SELECT handle,\n                  name,\n                  description,\n                  num_employees AS \"numEmployees\",\n                  logo_url AS \"logoUrl\"\n           FROM companies"

/-- WHERE parts and parameter values accumulated by Company.findAll, in
source order: minEmployees, then maxEmployees, then name. The source pushes
the value first and uses the array length as the placeholder index, so a
part's index is the value list's length after its own push. The name filter
is guarded by JS truthiness (`if (name)`), so an empty string is skipped. -/
def companyWhereValues (filters : CompanyFilters) : List String × List JSValue :=
  let s0 : List String × List JSValue := ([], [])
  let s1 :=
    match filters.minEmployees with
    | some m =>
        (s0.1 ++ ["num_employees >= $" ++ natStr (s0.2.length + 1)], s0.2 ++ [JSValue.num m])
    | none => s0
  let s2 :=
    match filters.maxEmployees with
    | some m =>
        (s1.1 ++ ["num_employees <= $" ++ natStr (s1.2.length + 1)], s1.2 ++ [JSValue.num m])
    | none => s1
  match filters.name with
  | some nm =>
      if nm = "" then s2
      else (s2.1 ++ ["LOWER(name) LIKE $" ++ natStr (s2.2.length + 1)],
            s2.2 ++ [JSValue.str ("%" ++ strLower nm ++ "%")])
  | none => s2

/-- Statement text and parameter list built by Company.findAll. This is the
pure statement-construction part; the db.query call and row return lie
outside the embedding. -/
def companyFindAll (filters : CompanyFilters) : String × List JSValue :=
  let wv := companyWhereValues filters
  let query :=
    if wv.1.length > 0 then companyBaseSelect ++ " WHERE " ++ joinWith " AND " wv.1
    else companyBaseSelect
  (query ++ " ORDER BY name", wv.2)

/-- Filter object accepted by Job.findAll. `hasEquity` is kept as a raw
`JSValue` because the source compares it to the boolean `true` with strict
equality. -/
structure JobFilters where
  title : Option String := none
  minSalary : Option Int := none
  hasEquity : Option JSValue := none
deriving DecidableEq, Repr

/-- Base SELECT of Job.findAll (models/job.js). -/
def jobBaseSelect : String :=
  "SELECT id,\n                title,\n                salary,\n                equity,\n                company_handle AS \"companyHandle\"\n            FROM jobs"

/-- WHERE parts and parameter values accumulated by Job.findAll before the
equity step, in source order: minSalary, then title (guarded by truthiness,
so an empty string is skipped). -/
def jobWhereValuesPre (filters : JobFilters) : List String × List JSValue :=
  let s0 : List String × List JSValue := ([], [])
  let s1 :=
    match filters.minSalary with
    | some m =>
        (s0.1 ++ ["salary >= $" ++ natStr (s0.2.length + 1)], s0.2 ++ [JSValue.num m])
    | none => s0
  match filters.title with
  | some t =>
      if t = "" then s1
      else (s1.1 ++ ["LOWER(title) LIKE $" ++ natStr (s1.2.length + 1)],
            s1.2 ++ [JSValue.str ("%" ++ strLower t ++ "%")])
  | none => s1

/-- WHERE parts and parameter values of Job.findAll: the equity predicate is
added only under `hasEquity === true`, with the literal threshold 0 and no
bound value. -/
def jobWhereValues (filters : JobFilters) : List String × List JSValue :=
  if filters.hasEquity = some (JSValue.bool true) then
    ((jobWhereValuesPre filters).1 ++ ["equity::float > 0"], (jobWhereValuesPre filters).2)
  else jobWhereValuesPre filters

/-- Statement text and parameter list built by Job.findAll. -/
def jobFindAll (filters : JobFilters) : String × List JSValue :=
  let wv := jobWhereValues filters
  let query :=
    if wv.1.length > 0 then jobBaseSelect ++ " WHERE " ++ joinWith " AND " wv.1
    else jobBaseSelect
  (query ++ " ORDER BY title", wv.2)

/-- Translation table passed by Company.update to sqlForPartialUpdate. -/
def companyUpdateMap : List (String × String) :=
  [("numEmployees", "num_employees"), ("logoUrl", "logo_url")]

/-- Text of the company UPDATE statement before the SET clause. -/
def companyUpdatePre : String := "UPDATE companies \n                      SET "

/-- Text of the company UPDATE statement between the SET clause and the
handle placeholder. -/
def companyUpdateMid : String := " \n                      WHERE handle = "

/-- Text of the company UPDATE statement after the handle placeholder. -/
def companyUpdatePost : String :=
  " \n                      RETURNING handle, \n                                name, \n                                description, \n                                num_employees AS \"numEmployees\", \n                                logo_url AS \"logoUrl\""

/-- Statement text and bound parameters built by Company.update: the SET
clause comes from sqlForPartialUpdate, the handle is bound at index
`values.length + 1` and appended after the update values. -/
def companyUpdate (handle : String) (data : List (String × JSValue)) :
    Except ExpressError (String × List JSValue) :=
  match sqlForPartialUpdate data companyUpdateMap with
  | .error e => .error e
  | .ok (setCols, values) =>
      let handleVarIdx := "$" ++ natStr (values.length + 1)
      .ok (companyUpdatePre ++ setCols ++ companyUpdateMid ++ handleVarIdx ++ companyUpdatePost,
           values ++ [JSValue.str handle])

/-- Translation table passed by Job.update to sqlForPartialUpdate. -/
def jobUpdateMap : List (String × String) :=
  [("title", "title"), ("salary", "salary"), ("equity", "equity")]

/-- Text of the job UPDATE statement before the SET clause. -/
def jobUpdatePre : String := "UPDATE jobs \n                      SET "

/-- Text of the job UPDATE statement between the SET clause and the id
placeholder. -/
def jobUpdateMid : String := " \n                      WHERE id = "

/-- Text of the job UPDATE statement after the id placeholder. -/
def jobUpdatePost : String :=
  " \n                      RETURNING id,\n                                title, \n                                salary, \n                                equity,\n                                company_handle AS \"companyHandle\""

/-- Statement text and bound parameters built by Job.update. -/
def jobUpdate (id : Int) (data : List (String × JSValue)) :
    Except ExpressError (String × List JSValue) :=
  match sqlForPartialUpdate data jobUpdateMap with
  | .error e => .error e
  | .ok (setCols, values) =>
      let idVarIdx := "$" ++ natStr (values.length + 1)
      .ok (jobUpdatePre ++ setCols ++ jobUpdateMid ++ idVarIdx ++ jobUpdatePost,
           values ++ [JSValue.num id])

/-- State of the positional-placeholder scanner: the indices collected so
far, and whether the scanner sits outside a placeholder (`none`), right after
a `$` with no digits yet (`some none`), or inside the digits of a placeholder
whose value so far is `n` (`some (some n)`). -/
structure PhState where
  acc : List Nat
  cur : Option (Option Nat)
deriving DecidableEq, Repr

/-- One scanner step over a character. -/
def phStep (st : PhState) (c : Char) : PhState :=
  match st.cur with
  | none => if c = '$' then ⟨st.acc, some none⟩ else st
  | some none =>
      if c.isDigit then ⟨st.acc, some (some (c.toNat - 48))⟩
      else if c = '$' then ⟨st.acc, some none⟩
      else ⟨st.acc, none⟩
  | some (some n) =>
      if c.isDigit then ⟨st.acc, some (some (10 * n + (c.toNat - 48)))⟩
      else if c = '$' then ⟨st.acc ++ [n], some none⟩
      else ⟨st.acc ++ [n], none⟩

/-- Close the scan, flushing a placeholder that ends at the end of input. -/
def phFinish (st : PhState) : List Nat :=
  match st.cur with
  | some (some n) => st.acc ++ [n]
  | _ => st.acc

/-- Positional placeholder indices occurring in a statement text, in order of
appearance: every maximal `$`-then-digits run contributes its decimal value. -/
def phIndices (s : String) : List Nat :=
  phFinish (s.data.foldl phStep ⟨[], none⟩)

theorem digitChar_isDigit (d : Nat) : (digitChar d).isDigit = true := by
  match d with
  | 0 | 1 | 2 | 3 | 4 | 5 | 6 | 7 | 8 => decide
  | n + 9 => exact (by decide : ('9').isDigit = true)

theorem digitChar_ne_dollar (d : Nat) : digitChar d ≠ '$' := by
  match d with
  | 0 | 1 | 2 | 3 | 4 | 5 | 6 | 7 | 8 => decide
  | n + 9 => exact (by decide : ('9') ≠ '$')

theorem digitChar_val (d : Nat) (h : d < 10) : (digitChar d).toNat - 48 = d := by
  match d with
  | 0 | 1 | 2 | 3 | 4 | 5 | 6 | 7 | 8 | 9 => decide
  | n + 10 => omega

theorem natDigits_isDigit (n : Nat) : ∀ c ∈ natDigits n, c.isDigit = true := by
  induction n using Nat.strong_induction_on with
  | _ n ih =>
      rw [natDigits_unfold]
      by_cases h : n < 10
      · rw [if_pos h]
        intro c hc
        rw [List.mem_singleton] at hc
        rw [hc]
        exact digitChar_isDigit n
      · rw [if_neg h]
        intro c hc
        rcases List.mem_append.mp hc with hc | hc
        · exact ih (n / 10) (Nat.div_lt_self (by omega) (by omega)) c hc
        · rw [List.mem_singleton] at hc
          rw [hc]
          exact digitChar_isDigit (n % 10)

theorem natDigits_ne_nil (n : Nat) : natDigits n ≠ [] := by
  rw [natDigits_unfold]
  by_cases h : n < 10
  · rw [if_pos h]; simp
  · rw [if_neg h]; simp

/-- Decimal value of a digit run, read left to right starting from `a`. -/
def decVal (a : Nat) (ds : List Char) : Nat :=
  ds.foldl (fun x c => 10 * x + (c.toNat - 48)) a

theorem decVal_natDigits (n : Nat) : decVal 0 (natDigits n) = n := by
  induction n using Nat.strong_induction_on with
  | _ n ih =>
      rw [natDigits_unfold]
      by_cases h : n < 10
      · rw [if_pos h]
        show 10 * 0 + ((digitChar n).toNat - 48) = n
        rw [digitChar_val n h]
        omega
      · rw [if_neg h]
        show List.foldl _ 0 (natDigits (n / 10) ++ [digitChar (n % 10)]) = n
        rw [List.foldl_append]
        have h1 : List.foldl (fun x c => 10 * x + (c.toNat - 48)) 0 (natDigits (n / 10))
            = n / 10 := ih (n / 10) (Nat.div_lt_self (by omega) (by omega))
        rw [h1]
        show 10 * (n / 10) + ((digitChar (n % 10)).toNat - 48) = n
        rw [digitChar_val (n % 10) (Nat.mod_lt n (by omega))]
        omega

theorem phStep_none (acc : List Nat) (c : Char) (h : c ≠ '$') :
    phStep ⟨acc, none⟩ c = ⟨acc, none⟩ := by
  simp [phStep, h]

theorem phStep_none_dollar (acc : List Nat) : phStep ⟨acc, none⟩ '$' = ⟨acc, some none⟩ := rfl

theorem phStep_start_digit (acc : List Nat) (c : Char) (h : c.isDigit = true) :
    phStep ⟨acc, some none⟩ c = ⟨acc, some (some (c.toNat - 48))⟩ := by
  simp [phStep, h]

theorem phStep_inside_digit (acc : List Nat) (n : Nat) (c : Char) (h : c.isDigit = true) :
    phStep ⟨acc, some (some n)⟩ c = ⟨acc, some (some (10 * n + (c.toNat - 48)))⟩ := by
  simp [phStep, h]

theorem phStep_inside_flush (acc : List Nat) (n : Nat) (c : Char)
    (h1 : c.isDigit = false) (h2 : c ≠ '$') :
    phStep ⟨acc, some (some n)⟩ c = ⟨acc ++ [n], none⟩ := by
  simp [phStep, h1, h2]

theorem scan_no_dollar : ∀ (cs : List Char) (acc : List Nat), '$' ∉ cs →
    cs.foldl phStep ⟨acc, none⟩ = ⟨acc, none⟩ := by
  intro cs
  induction cs with
  | nil => intro acc _; rfl
  | cons c cs ih =>
      intro acc h
      rw [List.foldl_cons, phStep_none acc c (fun hc => h (hc ▸ List.mem_cons_self c cs))]
      exact ih acc (fun hc => h (List.mem_cons_of_mem c hc))

theorem scan_digit_run : ∀ (ds : List Char) (acc : List Nat) (a : Nat),
    (∀ c ∈ ds, c.isDigit = true) →
    ds.foldl phStep ⟨acc, some (some a)⟩ = ⟨acc, some (some (decVal a ds))⟩ := by
  intro ds
  induction ds with
  | nil => intro acc a _; rfl
  | cons c cs ih =>
      intro acc a h
      rw [List.foldl_cons, phStep_inside_digit acc a c (h c (List.mem_cons_self c cs))]
      exact ih acc _ (fun x hx => h x (List.mem_cons_of_mem c hx))

theorem scan_natDigits (n : Nat) (acc : List Nat) :
    (natDigits n).foldl phStep ⟨acc, some none⟩ = ⟨acc, some (some n)⟩ := by
  obtain ⟨d, ds, hds⟩ : ∃ d ds, natDigits n = d :: ds := by
    match h : natDigits n with
    | [] => exact absurd h (natDigits_ne_nil n)
    | d :: ds => exact ⟨d, ds, rfl⟩
  have hdig := natDigits_isDigit n
  rw [hds] at hdig ⊢
  rw [List.foldl_cons, phStep_start_digit acc d (hdig d (List.mem_cons_self d ds))]
  rw [scan_digit_run ds acc _ (fun x hx => hdig x (List.mem_cons_of_mem d hx))]
  have : decVal (d.toNat - 48) ds = n := by
    have h0 : decVal 0 (d :: ds) = n := by rw [← hds]; exact decVal_natDigits n
    simpa [decVal] using h0
  rw [this]

theorem scan_flush_run (cs : List Char) (acc : List Nat) (n : Nat)
    (h : '$' ∉ cs) (hc : ∀ c ∈ cs.take 1, c.isDigit = false) (hne : cs ≠ []) :
    cs.foldl phStep ⟨acc, some (some n)⟩ = ⟨acc ++ [n], none⟩ := by
  match cs with
  | c :: cs' =>
      rw [List.foldl_cons,
        phStep_inside_flush acc n c (hc c (by simp))
          (fun hcd => h (hcd ▸ List.mem_cons_self c cs'))]
      exact scan_no_dollar cs' (acc ++ [n]) (fun hcd => h (List.mem_cons_of_mem c hcd))

theorem quote_data : ("\"" : String).data = ['"'] := rfl

theorem quoteEqDollar_data : ("\"=$" : String).data = ['"', '=', '$'] := rfl

theorem commaSpace_data : (", " : String).data = [',', ' '] := rfl

theorem natStr_data (n : Nat) : (natStr n).data = natDigits n := rfl

theorem scan_frag (nm : String) (hnm : '$' ∉ nm.data) (i : Nat) (acc : List Nat) :
    ("\"" ++ nm ++ "\"=$" ++ natStr (i + 1)).data.foldl phStep ⟨acc, none⟩
      = ⟨acc, some (some (i + 1))⟩ := by
  rw [String.data_append, String.data_append, String.data_append, quote_data,
    quoteEqDollar_data, natStr_data, List.foldl_append, List.foldl_append,
    List.foldl_append]
  have s1 : List.foldl phStep ⟨acc, none⟩ ['"'] = ⟨acc, none⟩ := by
    rw [List.foldl_cons, phStep_none acc '"' (by decide)]
    rfl
  have s2 : List.foldl phStep ⟨acc, none⟩ nm.data = ⟨acc, none⟩ :=
    scan_no_dollar nm.data acc hnm
  have s3 : List.foldl phStep ⟨acc, none⟩ ['"', '=', '$'] = ⟨acc, some none⟩ := by
    rw [List.foldl_cons, phStep_none acc '"' (by decide), List.foldl_cons,
      phStep_none acc '=' (by decide), List.foldl_cons, phStep_none_dollar]
    rfl
  rw [s1, s2, s3, scan_natDigits]

theorem scan_colFrags : ∀ (ks : List String) (jsToSql : List (String × String))
    (start : Nat) (acc : List Nat),
    (∀ k ∈ ks, '$' ∉ (colNameOr jsToSql k).data) → ks ≠ [] →
    (joinWith ", " (colFrags jsToSql ks start)).data.foldl phStep ⟨acc, none⟩
      = ⟨acc ++ List.range' (start + 1) (ks.length - 1), some (some (start + ks.length))⟩ := by
  intro ks
  induction ks with
  | nil => intro _ _ _ _ h; exact absurd rfl h
  | cons k ks ih =>
      intro jsToSql start acc hdol _
      match ks with
      | [] =>
          show ("\"" ++ colNameOr jsToSql k ++ "\"=$" ++ natStr (start + 1)).data.foldl
              phStep ⟨acc, none⟩ = _
          rw [scan_frag (colNameOr jsToSql k) (hdol k (by simp)) start acc]
          simp
      | k' :: rest =>
          show (("\"" ++ colNameOr jsToSql k ++ "\"=$" ++ natStr (start + 1)) ++ ", " ++
              joinWith ", " (colFrags jsToSql (k' :: rest) (start + 1))).data.foldl
              phStep ⟨acc, none⟩ = _
          rw [String.data_append, String.data_append, List.foldl_append, List.foldl_append,
            scan_frag (colNameOr jsToSql k) (hdol k (by simp)) start acc, commaSpace_data]
          have s4 : List.foldl phStep ⟨acc, some (some (start + 1))⟩ [',', ' ']
              = ⟨acc ++ [start + 1], none⟩ :=
            scan_flush_run [',', ' '] acc (start + 1) (by decide) (by decide) (by simp)
          rw [s4, ih jsToSql (start + 1) (acc ++ [start + 1])
            (fun x hx => hdol x (List.mem_cons_of_mem k hx)) (by simp)]
          have hr : List.range' (start + 1) ((k :: k' :: rest).length - 1)
              = (start + 1) :: List.range' (start + 2) ((k' :: rest).length - 1) := by
            simp [List.range'_succ]
          rw [hr]
          simp [PhState.mk.injEq]
          omega

theorem phIndices_joinFrags (ks : List String) (jsToSql : List (String × String))
    (h : ∀ k ∈ ks, '$' ∉ (colNameOr jsToSql k).data) (hne : ks ≠ []) :
    phIndices (joinWith ", " (colFrags jsToSql ks 0)) = List.range' 1 ks.length := by
  unfold phIndices
  rw [scan_colFrags ks jsToSql 0 [] h hne]
  have hlen : 0 < ks.length := List.length_pos.mpr hne
  obtain ⟨l, hl⟩ : ∃ l, ks.length = l + 1 := ⟨ks.length - 1, by omega⟩
  show List.range' 1 (ks.length - 1) ++ [0 + ks.length] = List.range' 1 ks.length
  rw [hl]
  simp [List.range'_1_concat]
  omega

theorem sqlForPartialUpdate_ne_nil (data : List (String × JSValue))
    (jsToSql : List (String × String)) (h : data ≠ []) :
    sqlForPartialUpdate data jsToSql
      = .ok (joinWith ", " (colFrags jsToSql (data.map Prod.fst) 0), data.map Prod.snd) := by
  have hlen : (data.map Prod.fst).length ≠ 0 := by simp [h]
  simp [sqlForPartialUpdate, hlen, h]

theorem sqlForPartialUpdate_ok_inv (data : List (String × JSValue))
    (jsToSql : List (String × String)) (setCols : String) (values : List JSValue)
    (h : sqlForPartialUpdate data jsToSql = .ok (setCols, values)) :
    data ≠ [] ∧ setCols = joinWith ", " (colFrags jsToSql (data.map Prod.fst) 0) ∧
      values = data.map Prod.snd := by
  by_cases hd : data = []
  · subst hd
    simp [sqlForPartialUpdate] at h
  · rw [sqlForPartialUpdate_ne_nil data jsToSql hd] at h
    simp only [Except.ok.injEq, Prod.mk.injEq] at h
    exact ⟨hd, h.1.symm, h.2.symm⟩

theorem colFrags_length (jsToSql : List (String × String)) :
    ∀ (ks : List String) (start : Nat), (colFrags jsToSql ks start).length = ks.length := by
  intro ks
  induction ks with
  | nil => intro _; rfl
  | cons k ks ih => intro start; simp [colFrags, ih]

theorem colFrags_getElem? (jsToSql : List (String × String)) :
    ∀ (ks : List String) (start i : Nat),
    (colFrags jsToSql ks start)[i]?
      = (ks[i]?).map (fun k => "\"" ++ colNameOr jsToSql k ++ "\"=$" ++ natStr (start + i + 1)) := by
  intro ks
  induction ks with
  | nil => intro start i; simp [colFrags]
  | cons k ks ih =>
      intro start i
      match i with
      | 0 => simp [colFrags]
      | i + 1 =>
          rw [show colFrags jsToSql (k :: ks) start
              = ("\"" ++ colNameOr jsToSql k ++ "\"=$" ++ natStr (start + 1))
                :: colFrags jsToSql ks (start + 1) from rfl]
          rw [List.getElem?_cons_succ, List.getElem?_cons_succ, ih (start + 1) i]
          have h2 : start + 1 + i + 1 = start + (i + 1) + 1 := by omega
          rw [h2]

theorem jobWhereValuesPre_ignores_equity (t : Option String) (ms : Option Int)
    (he he' : Option JSValue) :
    jobWhereValuesPre ⟨t, ms, he⟩ = jobWhereValuesPre ⟨t, ms, he'⟩ := rfl

/-- C1: for every non-empty field mapping and every translation table,
sqlForPartialUpdate returns one fragment per input field in the mapping's
insertion order, the i-th fragment being the resolved column name quoted and
bound to placeholder i+1 with indices running 1..k with no gaps, and the
values list equal to the fields' values in the same order; concretely the
two-field example yields setClause `"first_name"=$1, "age"=$2` and values
[Aliya, 32]. -/
theorem compileUpdate_fragment_shape :
    (∀ (dataToUpdate : List (String × JSValue)) (jsToSql : List (String × String)),
      dataToUpdate ≠ [] →
      ∃ setCols values,
        sqlForPartialUpdate dataToUpdate jsToSql = .ok (setCols, values) ∧
        values = dataToUpdate.map Prod.snd ∧
        setCols = joinWith ", " (colFrags jsToSql (dataToUpdate.map Prod.fst) 0) ∧
        (colFrags jsToSql (dataToUpdate.map Prod.fst) 0).length = dataToUpdate.length ∧
        ∀ i : Nat,
          (colFrags jsToSql (dataToUpdate.map Prod.fst) 0)[i]?
            = ((dataToUpdate.map Prod.fst)[i]?).map
                (fun k => "\"" ++ colNameOr jsToSql k ++ "\"=$" ++ natStr (i + 1))) ∧
    sqlForPartialUpdate [("firstName", JSValue.str "Aliya"), ("age", JSValue.num 32)]
        [("firstName", "first_name")]
      = .ok ("\"first_name\"=$1, \"age\"=$2", [JSValue.str "Aliya", JSValue.num 32]) := by
  constructor
  · intro data jsToSql h
    refine ⟨_, _, sqlForPartialUpdate_ne_nil data jsToSql h, rfl, rfl, ?_, ?_⟩
    · rw [colFrags_length, List.length_map]
    · intro i
      rw [colFrags_getElem? jsToSql (data.map Prod.fst) 0 i]
      have h0 : 0 + i + 1 = i + 1 := by omega
      rw [h0]
  · rfl

/-- Witness for C1 at the concrete two-field update of the spec scenario. -/
theorem compileUpdate_fragment_shape_witness :
    ∃ setCols values,
      sqlForPartialUpdate [("firstName", JSValue.str "Aliya"), ("age", JSValue.num 32)]
          [("firstName", "first_name")] = .ok (setCols, values) ∧
      values = [("firstName", JSValue.str "Aliya"), ("age", JSValue.num 32)].map Prod.snd ∧
      setCols = joinWith ", "
        (colFrags [("firstName", "first_name")]
          ([("firstName", JSValue.str "Aliya"), ("age", JSValue.num 32)].map Prod.fst) 0) ∧
      (colFrags [("firstName", "first_name")]
        ([("firstName", JSValue.str "Aliya"), ("age", JSValue.num 32)].map Prod.fst) 0).length
        = [("firstName", JSValue.str "Aliya"), ("age", JSValue.num 32)].length ∧
      ∀ i : Nat,
        (colFrags [("firstName", "first_name")]
          ([("firstName", JSValue.str "Aliya"), ("age", JSValue.num 32)].map Prod.fst) 0)[i]?
          = (([("firstName", JSValue.str "Aliya"), ("age", JSValue.num 32)].map Prod.fst)[i]?).map
              (fun k => "\"" ++ colNameOr [("firstName", "first_name")] k ++ "\"=$" ++ natStr (i + 1)) :=
  compileUpdate_fragment_shape.1
    [("firstName", JSValue.str "Aliya"), ("age", JSValue.num 32)]
    [("firstName", "first_name")] (by decide)

/-- C2: sqlForPartialUpdate fails exactly when the fields mapping has zero
entries, always with BadRequestError "No data" (the spec's EmptyUpdateError),
regardless of the translation table; every non-empty mapping returns
normally, and this error is the only error the compiler produces. -/
theorem compileUpdate_empty_error
    (dataToUpdate : List (String × JSValue)) (jsToSql : List (String × String)) :
    (dataToUpdate = [] ↔
      sqlForPartialUpdate dataToUpdate jsToSql = .error (.badRequestError "No data")) ∧
    (∀ e, sqlForPartialUpdate dataToUpdate jsToSql = .error e →
      e = .badRequestError "No data" ∧ dataToUpdate = []) ∧
    (dataToUpdate ≠ [] → ∃ r, sqlForPartialUpdate dataToUpdate jsToSql = .ok r) := by
  refine ⟨⟨?_, ?_⟩, ?_, ?_⟩
  · intro h
    subst h
    rfl
  · intro h
    by_cases hd : dataToUpdate = []
    · exact hd
    · rw [sqlForPartialUpdate_ne_nil _ _ hd] at h
      simp at h
  · intro e he
    by_cases hd : dataToUpdate = []
    · subst hd
      have h0 : sqlForPartialUpdate [] jsToSql = .error (.badRequestError "No data") := rfl
      rw [h0] at he
      simp only [Except.error.injEq] at he
      exact ⟨he.symm, rfl⟩
    · rw [sqlForPartialUpdate_ne_nil _ _ hd] at he
      simp at he
  · intro hd
    exact ⟨_, sqlForPartialUpdate_ne_nil _ _ hd⟩

/-- Witness for C2 at the empty mapping and at a one-field mapping. -/
theorem compileUpdate_empty_error_witness :
    sqlForPartialUpdate ([] : List (String × JSValue)) []
      = .error (.badRequestError "No data") ∧
    ∃ r, sqlForPartialUpdate [("age", JSValue.num 40)] [] = .ok r :=
  ⟨(compileUpdate_empty_error [] []).1.mp rfl,
   (compileUpdate_empty_error [("age", JSValue.num 40)] []).2.2 (by decide)⟩

/-- C7 counterexample: with fields {age: 40} and translation table
{age: ""}, the fragment uses the logical name "age", not the mapped empty
string, so a mapped name that is the empty string is not honored. -/
theorem emptyString_mapping_counterexample :
    sqlForPartialUpdate [("age", JSValue.num 40)] [("age", "")]
      = .ok ("\"age\"=$1", [JSValue.num 40]) ∧
    ("\"age\"=$1" : String) ≠ "\"\"=$1" := ⟨rfl, by decide⟩

/-- C7 amended: a field whose logical name maps to a non-empty column name
uses the mapped name; a logical name absent from the table, or mapped to the
empty string (a JS falsy value), uses the logical name verbatim. -/
theorem colName_resolution_amended
    (jsToSql : List (String × String)) (colName : String) :
    (∀ s, jsToSql.lookup colName = some s → s ≠ "" → colNameOr jsToSql colName = s) ∧
    (jsToSql.lookup colName = none → colNameOr jsToSql colName = colName) ∧
    (jsToSql.lookup colName = some "" → colNameOr jsToSql colName = colName) := by
  refine ⟨?_, ?_, ?_⟩
  · intro s h hs
    simp [colNameOr, h, hs]
  · intro h
    simp [colNameOr, h]
  · intro h
    simp [colNameOr, h]

/-- Witness for C7 amended at a mapped, an unmapped, and an empty-mapped
name. -/
theorem colName_resolution_amended_witness :
    colNameOr [("firstName", "first_name")] "firstName" = "first_name" ∧
    colNameOr [("firstName", "first_name")] "age" = "age" ∧
    colNameOr [("age", "")] "age" = "age" :=
  ⟨(colName_resolution_amended [("firstName", "first_name")] "firstName").1
      "first_name" rfl (by decide),
   (colName_resolution_amended [("firstName", "first_name")] "age").2.1 rfl,
   (colName_resolution_amended [("age", "")] "age").2.2 rfl⟩

/-- C4: supplying hasEquity as boolean true adds the single predicate
`equity::float > 0` with the threshold embedded literally and no value
appended to the parameter list; supplying false or omitting it leaves both
the predicate list and the parameter list exactly as without the filter. -/
theorem equity_filter_literal (f : JobFilters) :
    (f.hasEquity = some (JSValue.bool true) →
      (jobWhereValues f).1
        = (jobWhereValues { f with hasEquity := none }).1 ++ ["equity::float > 0"] ∧
      (jobWhereValues f).2 = (jobWhereValues { f with hasEquity := none }).2) ∧
    (f.hasEquity = some (JSValue.bool false) ∨ f.hasEquity = none →
      jobWhereValues f = jobWhereValues { f with hasEquity := none }) := by
  rcases f with ⟨t, ms, he⟩
  constructor
  · intro h
    have h' : he = some (JSValue.bool true) := h
    subst h'
    constructor
    · show (jobWhereValues ⟨t, ms, some (JSValue.bool true)⟩).1
        = (jobWhereValues ⟨t, ms, none⟩).1 ++ ["equity::float > 0"]
      simp [jobWhereValues, jobWhereValuesPre_ignores_equity t ms (some (JSValue.bool true)) none]
    · show (jobWhereValues ⟨t, ms, some (JSValue.bool true)⟩).2
        = (jobWhereValues ⟨t, ms, none⟩).2
      simp [jobWhereValues, jobWhereValuesPre_ignores_equity t ms (some (JSValue.bool true)) none]
  · intro h
    show jobWhereValues ⟨t, ms, he⟩ = jobWhereValues ⟨t, ms, none⟩
    have h' : he = some (JSValue.bool false) ∨ he = none := h
    rcases h' with h' | h' <;> subst h' <;>
      simp [jobWhereValues, jobWhereValuesPre_ignores_equity t ms (some (JSValue.bool false)) none]

/-- Witness for C4 at a filter with only hasEquity set, true and false. -/
theorem equity_filter_literal_witness :
    ((jobWhereValues ⟨none, none, some (JSValue.bool true)⟩).1
        = (jobWhereValues ⟨none, none, none⟩).1 ++ ["equity::float > 0"] ∧
      (jobWhereValues ⟨none, none, some (JSValue.bool true)⟩).2
        = (jobWhereValues ⟨none, none, none⟩).2) ∧
    jobWhereValues ⟨none, none, some (JSValue.bool false)⟩
      = jobWhereValues ⟨none, none, none⟩ :=
  ⟨(equity_filter_literal ⟨none, none, some (JSValue.bool true)⟩).1 rfl,
   (equity_filter_literal ⟨none, none, some (JSValue.bool false)⟩).2 (Or.inl rfl)⟩

/-- C9: the equity predicate is gated by strict equality with the boolean
true: for any present hasEquity value other than boolean true (for example
the string "true", the number 1, or false), Job.findAll produces the same
statement text and parameter list as with hasEquity absent. -/
theorem equity_gate_strict (f : JobFilters) (v : JSValue)
    (h : f.hasEquity = some v) (hv : v ≠ JSValue.bool true) :
    jobFindAll f = jobFindAll { f with hasEquity := none } := by
  rcases f with ⟨t, ms, he⟩
  have h' : he = some v := h
  subst h'
  have hwv : jobWhereValues ⟨t, ms, some v⟩ = jobWhereValues ⟨t, ms, none⟩ := by
    simp [jobWhereValues, hv, jobWhereValuesPre_ignores_equity t ms (some v) none]
  show jobFindAll ⟨t, ms, some v⟩ = jobFindAll ⟨t, ms, none⟩
  simp only [jobFindAll]
  rw [hwv]

/-- Witness for C9 at hasEquity supplied as the string "true", the number 1,
and the boolean false. -/
theorem equity_gate_strict_witness :
    jobFindAll ⟨none, none, some (JSValue.str "true")⟩ = jobFindAll ⟨none, none, none⟩ ∧
    jobFindAll ⟨none, none, some (JSValue.num 1)⟩ = jobFindAll ⟨none, none, none⟩ ∧
    jobFindAll ⟨none, none, some (JSValue.bool false)⟩ = jobFindAll ⟨none, none, none⟩ :=
  ⟨equity_gate_strict ⟨none, none, some (JSValue.str "true")⟩ (JSValue.str "true") rfl (by decide),
   equity_gate_strict ⟨none, none, some (JSValue.num 1)⟩ (JSValue.num 1) rfl (by decide),
   equity_gate_strict ⟨none, none, some (JSValue.bool false)⟩ (JSValue.bool false) rfl (by decide)⟩

/-- C5: an applied substring filter lower-cases the input, wraps it in %
wildcards, binds the pattern as the next positional parameter, and compares
it against the lower-cased column, for Company.findAll (name) and
Job.findAll (title). -/
theorem substring_filter_shape :
    (∀ (f : CompanyFilters) (nm : String), f.name = some nm → nm ≠ "" →
      ("LOWER(name) LIKE $" ++ natStr (companyWhereValues f).2.length)
          ∈ (companyWhereValues f).1 ∧
      (companyWhereValues f).2.getLast? = some (JSValue.str ("%" ++ strLower nm ++ "%"))) ∧
    (∀ (f : JobFilters) (t : String), f.title = some t → t ≠ "" →
      ("LOWER(title) LIKE $" ++ natStr (jobWhereValues f).2.length)
          ∈ (jobWhereValues f).1 ∧
      (jobWhereValues f).2.getLast? = some (JSValue.str ("%" ++ strLower t ++ "%"))) := by
  constructor
  · intro f nm h hnm
    rcases f with ⟨name?, min?, max?⟩
    have h' : name? = some nm := h
    subst h'
    rcases min? with _ | a <;> rcases max? with _ | b <;>
      refine ⟨?_, ?_⟩ <;>
      simp [companyWhereValues, hnm]
  · intro f t h ht
    rcases f with ⟨title?, min?, he?⟩
    have h' : title? = some t := h
    subst h'
    rcases min? with _ | a <;>
      by_cases heq : he? = some (JSValue.bool true) <;>
      refine ⟨?_, ?_⟩ <;>
      simp [jobWhereValues, jobWhereValuesPre, ht, heq]

/-- Witness for C5 at a name filter "inc" and a title filter "net". -/
theorem substring_filter_shape_witness :
    (("LOWER(name) LIKE $" ++ natStr (companyWhereValues ⟨some "inc", none, none⟩).2.length)
        ∈ (companyWhereValues ⟨some "inc", none, none⟩).1 ∧
      (companyWhereValues ⟨some "inc", none, none⟩).2.getLast?
        = some (JSValue.str ("%" ++ strLower "inc" ++ "%"))) ∧
    (("LOWER(title) LIKE $" ++ natStr (jobWhereValues ⟨some "net", none, none⟩).2.length)
        ∈ (jobWhereValues ⟨some "net", none, none⟩).1 ∧
      (jobWhereValues ⟨some "net", none, none⟩).2.getLast?
        = some (JSValue.str ("%" ++ strLower "net" ++ "%"))) :=
  ⟨substring_filter_shape.1 ⟨some "inc", none, none⟩ "inc" rfl (by decide),
   substring_filter_shape.2 ⟨some "net", none, none⟩ "net" rfl (by decide)⟩

/-- C6: the empty filter input produces a statement with no WHERE clause and
an empty parameter list for both builders, and every filter input produces a
statement ending in the fixed deterministic ORDER BY (name for companies,
title for jobs). -/
theorem no_filters_no_where :
    companyFindAll {} = (companyBaseSelect ++ " ORDER BY name", []) ∧
    jobFindAll {} = (jobBaseSelect ++ " ORDER BY title", []) ∧
    ¬ ("WHERE".data <:+: (companyBaseSelect ++ " ORDER BY name").data) ∧
    ¬ ("WHERE".data <:+: (jobBaseSelect ++ " ORDER BY title").data) ∧
    (∀ f : CompanyFilters, ∃ p, (companyFindAll f).1 = p ++ " ORDER BY name") ∧
    (∀ f : JobFilters, ∃ p, (jobFindAll f).1 = p ++ " ORDER BY title") := by
  refine ⟨rfl, rfl, by decide, by decide, ?_, ?_⟩
  · intro f
    exact ⟨_, rfl⟩
  · intro f
    exact ⟨_, rfl⟩

/-- C3 counterexample: a name filter supplied as the empty string is present
but contributes no predicate (the output equals the no-filter output), and a
hasEquity filter supplied as false likewise contributes none, refuting the
claim that a present filter with value empty-string or false contributes
exactly one predicate. -/
theorem filter_presence_counterexample :
    (companyWhereValues ⟨some "", none, none⟩).1 = [] ∧
    companyFindAll ⟨some "", none, none⟩ = companyFindAll ⟨none, none, none⟩ ∧
    (jobWhereValues ⟨none, none, some (JSValue.bool false)⟩).1 = [] ∧
    jobFindAll ⟨none, none, some (JSValue.bool false)⟩ = jobFindAll ⟨none, none, none⟩ :=
  ⟨rfl, rfl, rfl, rfl⟩

/-- Predicate contributed by the minEmployees filter under the amended C3. -/
def companyMinPart (f : CompanyFilters) : List String :=
  match f.minEmployees with
  | some _ => ["num_employees >= $1"]
  | none => []

/-- Parameter contributed by the minEmployees filter. -/
def companyMinVals (f : CompanyFilters) : List JSValue :=
  match f.minEmployees with
  | some m => [JSValue.num m]
  | none => []

/-- Predicate contributed by the maxEmployees filter, at the next index. -/
def companyMaxPart (f : CompanyFilters) : List String :=
  match f.maxEmployees with
  | some _ => ["num_employees <= $" ++ natStr ((companyMinVals f).length + 1)]
  | none => []

/-- Parameter contributed by the maxEmployees filter. -/
def companyMaxVals (f : CompanyFilters) : List JSValue :=
  match f.maxEmployees with
  | some m => [JSValue.num m]
  | none => []

/-- Predicate contributed by a truthy (non-empty) name filter, at the next
index. -/
def companyNamePart (f : CompanyFilters) : List String :=
  match f.name with
  | some nm =>
      if nm = "" then []
      else ["LOWER(name) LIKE $"
              ++ natStr ((companyMinVals f).length + (companyMaxVals f).length + 1)]
  | none => []

/-- Parameter contributed by a truthy (non-empty) name filter. -/
def companyNameVals (f : CompanyFilters) : List JSValue :=
  match f.name with
  | some nm => if nm = "" then [] else [JSValue.str ("%" ++ strLower nm ++ "%")]
  | none => []

/-- Predicate contributed by the minSalary filter under the amended C3. -/
def jobMinPart (f : JobFilters) : List String :=
  match f.minSalary with
  | some _ => ["salary >= $1"]
  | none => []

/-- Parameter contributed by the minSalary filter. -/
def jobMinVals (f : JobFilters) : List JSValue :=
  match f.minSalary with
  | some m => [JSValue.num m]
  | none => []

/-- Predicate contributed by a truthy (non-empty) title filter. -/
def jobTitlePart (f : JobFilters) : List String :=
  match f.title with
  | some t =>
      if t = "" then []
      else ["LOWER(title) LIKE $" ++ natStr ((jobMinVals f).length + 1)]
  | none => []

/-- Parameter contributed by a truthy (non-empty) title filter. -/
def jobTitleVals (f : JobFilters) : List JSValue :=
  match f.title with
  | some t => if t = "" then [] else [JSValue.str ("%" ++ strLower t ++ "%")]
  | none => []

/-- Predicate contributed by a strictly-true hasEquity filter, with no
parameter. -/
def jobEquityPart (f : JobFilters) : List String :=
  if f.hasEquity = some (JSValue.bool true) then ["equity::float > 0"] else []

/-- C3 amended: each numeric bound filter present (not undefined, including
the value 0) contributes exactly one predicate; a substring filter
contributes one exactly when it is a non-empty string (empty strings are
dropped by the truthiness check); the equity filter contributes one exactly
when it is the boolean true; predicates appear in the fixed order (bounds,
then substring, then equity) joined with AND, and each bound value is
appended at the next positional index. -/
theorem filter_predicates_ordered :
    (∀ f : CompanyFilters,
      (companyWhereValues f).1 = companyMinPart f ++ companyMaxPart f ++ companyNamePart f ∧
      (companyWhereValues f).2 = companyMinVals f ++ companyMaxVals f ++ companyNameVals f) ∧
    (∀ f : JobFilters,
      (jobWhereValues f).1 = jobMinPart f ++ jobTitlePart f ++ jobEquityPart f ∧
      (jobWhereValues f).2 = jobMinVals f ++ jobTitleVals f) ∧
    (∀ f : CompanyFilters, (companyWhereValues f).1 ≠ [] →
      (companyFindAll f).1
        = companyBaseSelect ++ " WHERE " ++ joinWith " AND " (companyWhereValues f).1
            ++ " ORDER BY name") ∧
    (∀ f : JobFilters, (jobWhereValues f).1 ≠ [] →
      (jobFindAll f).1
        = jobBaseSelect ++ " WHERE " ++ joinWith " AND " (jobWhereValues f).1
            ++ " ORDER BY title") := by
  refine ⟨?_, ?_, ?_, ?_⟩
  · intro f
    rcases f with ⟨name?, min?, max?⟩
    rcases name? with _ | nm <;> rcases min? with _ | a <;> rcases max? with _ | b <;>
      first
      | exact ⟨rfl, rfl⟩
      | (by_cases hnm : nm = "" <;>
          refine ⟨?_, ?_⟩ <;>
          simp [companyWhereValues, companyMinPart, companyMinVals, companyMaxPart,
            companyMaxVals, companyNamePart, companyNameVals, hnm] <;>
          try decide)
  · intro f
    rcases f with ⟨title?, min?, he?⟩
    rcases title? with _ | t
    · rcases min? with _ | a <;>
        by_cases heq : he? = some (JSValue.bool true) <;>
        refine ⟨?_, ?_⟩ <;>
        simp [jobWhereValues, jobWhereValuesPre, jobMinPart, jobMinVals, jobTitlePart,
          jobTitleVals, jobEquityPart, heq] <;>
        try decide
    · by_cases ht : t = ""
      · subst ht
        rcases min? with _ | a <;>
          by_cases heq : he? = some (JSValue.bool true) <;>
          refine ⟨?_, ?_⟩ <;>
          simp [jobWhereValues, jobWhereValuesPre, jobMinPart, jobMinVals, jobTitlePart,
            jobTitleVals, jobEquityPart, heq] <;>
          try decide
      · rcases min? with _ | a <;>
          by_cases heq : he? = some (JSValue.bool true) <;>
          refine ⟨?_, ?_⟩ <;>
          simp [jobWhereValues, jobWhereValuesPre, jobMinPart, jobMinVals, jobTitlePart,
            jobTitleVals, jobEquityPart, heq, ht] <;>
          try decide
  · intro f h
    have hl : 0 < (companyWhereValues f).1.length := List.length_pos.mpr h
    show (if 0 < (companyWhereValues f).1.length
          then companyBaseSelect ++ " WHERE " ++ joinWith " AND " (companyWhereValues f).1
          else companyBaseSelect) ++ " ORDER BY name" = _
    rw [if_pos hl]
  · intro f h
    have hl : 0 < (jobWhereValues f).1.length := List.length_pos.mpr h
    show (if 0 < (jobWhereValues f).1.length
          then jobBaseSelect ++ " WHERE " ++ joinWith " AND " (jobWhereValues f).1
          else jobBaseSelect) ++ " ORDER BY title" = _
    rw [if_pos hl]

/-- Witness for C3 amended: the WHERE clause joining at a one-bound filter
for each builder. -/
theorem filter_predicates_ordered_witness :
    (companyFindAll ⟨none, some 10, none⟩).1
      = companyBaseSelect ++ " WHERE "
          ++ joinWith " AND " (companyWhereValues ⟨none, some 10, none⟩).1
          ++ " ORDER BY name" ∧
    (jobFindAll ⟨none, some 10, none⟩).1
      = jobBaseSelect ++ " WHERE "
          ++ joinWith " AND " (jobWhereValues ⟨none, some 10, none⟩).1
          ++ " ORDER BY title" :=
  ⟨filter_predicates_ordered.2.2.1 ⟨none, some 10, none⟩ (by decide),
   filter_predicates_ordered.2.2.2 ⟨none, some 10, none⟩ (by decide)⟩

theorem range'_one_concat (k : Nat) (hk : 0 < k) :
    List.range' 1 (k - 1) ++ [k] = List.range' 1 k := by
  obtain ⟨l, hl⟩ : ∃ l, k = l + 1 := ⟨k - 1, by omega⟩
  subst hl
  rw [List.range'_1_concat]
  simp [Nat.add_comm]

theorem phIndices_update_stmt (pre mid post : String) (ks : List String)
    (jsToSql : List (String × String))
    (hpre : '$' ∉ pre.data)
    (hmid : '$' ∉ mid.data) (hmid1 : ∀ c ∈ mid.data.take 1, c.isDigit = false)
    (hmidne : mid.data ≠ [])
    (hpost : '$' ∉ post.data) (hpost1 : ∀ c ∈ post.data.take 1, c.isDigit = false)
    (hpostne : post.data ≠ [])
    (hks : ∀ k ∈ ks, '$' ∉ (colNameOr jsToSql k).data) (hkne : ks ≠ []) :
    phIndices (pre ++ joinWith ", " (colFrags jsToSql ks 0) ++ mid
        ++ ("$" ++ natStr (ks.length + 1)) ++ post)
      = List.range' 1 (ks.length + 1) := by
  have hpos : 0 < ks.length := List.length_pos.mpr hkne
  have hdata : (pre ++ joinWith ", " (colFrags jsToSql ks 0) ++ mid
        ++ ("$" ++ natStr (ks.length + 1)) ++ post).data
      = pre.data ++ ((joinWith ", " (colFrags jsToSql ks 0)).data
          ++ (mid.data ++ ('$' :: (natDigits (ks.length + 1) ++ post.data)))) := by
    simp [String.data_append, natStr]
  unfold phIndices
  rw [hdata, List.foldl_append, scan_no_dollar pre.data [] hpre, List.foldl_append]
  have e2 : List.foldl phStep ⟨[], none⟩ (joinWith ", " (colFrags jsToSql ks 0)).data
      = ⟨List.range' 1 (ks.length - 1), some (some ks.length)⟩ := by
    have := scan_colFrags ks jsToSql 0 [] hks hkne
    simpa using this
  rw [e2, List.foldl_append,
    scan_flush_run mid.data (List.range' 1 (ks.length - 1)) ks.length hmid hmid1 hmidne,
    range'_one_concat ks.length hpos, List.foldl_cons, phStep_none_dollar,
    List.foldl_append, scan_natDigits (ks.length + 1) (List.range' 1 ks.length),
    scan_flush_run post.data (List.range' 1 ks.length) (ks.length + 1) hpost hpost1 hpostne]
  show List.range' 1 ks.length ++ [ks.length + 1] = List.range' 1 (ks.length + 1)
  exact range'_one_concat (ks.length + 1) (by omega)

/-- C8: each of the three builders emits a statement whose positional
placeholders are exactly $1 through $k, each occurring once and in order,
where k is the length of the returned values list, so placeholder i is bound
to the i-th value. For the update compiler this holds whenever the resolved
column names contain no dollar character (they come from the fixed
caller-controlled translation tables, never from user input). -/
theorem placeholders_enumerate_values :
    (∀ (dataToUpdate : List (String × JSValue)) (jsToSql : List (String × String))
        (setCols : String) (values : List JSValue),
        (∀ kv ∈ dataToUpdate, '$' ∉ (colNameOr jsToSql kv.1).data) →
        sqlForPartialUpdate dataToUpdate jsToSql = .ok (setCols, values) →
        phIndices setCols = List.range' 1 values.length) ∧
    (∀ f : CompanyFilters,
        phIndices (companyFindAll f).1 = List.range' 1 (companyFindAll f).2.length) ∧
    (∀ f : JobFilters,
        phIndices (jobFindAll f).1 = List.range' 1 (jobFindAll f).2.length) := by
  refine ⟨?_, ?_, ?_⟩
  · intro data jsToSql setCols values hdol hok
    obtain ⟨hne, hsc, hvals⟩ := sqlForPartialUpdate_ok_inv data jsToSql setCols values hok
    subst hsc
    subst hvals
    have hkeys : data.map Prod.fst ≠ [] := by simp [hne]
    have hd : ∀ k ∈ data.map Prod.fst, '$' ∉ (colNameOr jsToSql k).data := by
      intro k hk
      obtain ⟨kv, hkv, rfl⟩ := List.mem_map.mp hk
      exact hdol kv hkv
    rw [phIndices_joinFrags (data.map Prod.fst) jsToSql hd hkeys]
    simp
  · intro f
    rcases f with ⟨name?, min?, max?⟩
    rcases name? with _ | nm
    · rcases min? with _ | a <;> rcases max? with _ | b <;>
        first
        | decide
        | (simp [companyFindAll, companyWhereValues] <;> try decide)
    · by_cases hnm : nm = ""
      · subst hnm
        rcases min? with _ | a <;> rcases max? with _ | b <;>
          first
          | decide
          | (simp [companyFindAll, companyWhereValues] <;> try decide)
      · rcases min? with _ | a <;> rcases max? with _ | b <;>
          (simp [companyFindAll, companyWhereValues, hnm] <;> try decide)
  · intro f
    rcases f with ⟨title?, min?, he?⟩
    rcases title? with _ | t
    · rcases min? with _ | a <;>
        by_cases heq : he? = some (JSValue.bool true) <;>
        first
        | decide
        | (simp [jobFindAll, jobWhereValues, jobWhereValuesPre, heq] <;> try decide)
    · by_cases ht : t = ""
      · subst ht
        rcases min? with _ | a <;>
          by_cases heq : he? = some (JSValue.bool true) <;>
          first
          | decide
          | (simp [jobFindAll, jobWhereValues, jobWhereValuesPre, heq] <;> try decide)
      · rcases min? with _ | a <;>
          by_cases heq : he? = some (JSValue.bool true) <;>
          first
          | decide
          | (simp [jobFindAll, jobWhereValues, jobWhereValuesPre, heq, ht] <;> try decide)

/-- Witness for C8 at the two-field update of the spec scenario. -/
theorem placeholders_enumerate_values_witness :
    phIndices "\"first_name\"=$1, \"age\"=$2"
      = List.range' 1 ([JSValue.str "Aliya", JSValue.num 32] : List JSValue).length :=
  placeholders_enumerate_values.1
    [("firstName", JSValue.str "Aliya"), ("age", JSValue.num 32)]
    [("firstName", "first_name")]
    "\"first_name\"=$1, \"age\"=$2" [JSValue.str "Aliya", JSValue.num 32]
    (by decide) rfl

/-- Update fields accepted by Company.update per its documented contract
(data can include name, description, numEmployees, logoUrl). -/
def companyUpdatableKeys : List String := ["name", "description", "numEmployees", "logoUrl"]

/-- Update fields accepted by Job.update (the keys of its translation
table: title, salary, equity). -/
def jobUpdatableKeys : List String := ["title", "salary", "equity"]

/-- C10: for a k-field update, Company.update and Job.update bind the row's
identifying key (handle / id) at positional index k+1, immediately after the
k update values, and the key placeholder is the only one beyond the SET
clause's $1..$k; the key column never appears among the resolved SET
columns, so a compiled partial update cannot modify the row identifier. -/
theorem update_key_only_in_where :
    (∀ (handle : String) (data : List (String × JSValue)),
      data ≠ [] →
      (∀ kv ∈ data, kv.1 ∈ companyUpdatableKeys) →
      ∃ setCols values,
        sqlForPartialUpdate data companyUpdateMap = .ok (setCols, values) ∧
        companyUpdate handle data
          = .ok (companyUpdatePre ++ setCols ++ companyUpdateMid
                   ++ ("$" ++ natStr (values.length + 1)) ++ companyUpdatePost,
                 values ++ [JSValue.str handle]) ∧
        values.length = data.length ∧
        (values ++ [JSValue.str handle])[values.length]? = some (JSValue.str handle) ∧
        "handle" ∉ data.map (fun kv => colNameOr companyUpdateMap kv.1) ∧
        phIndices (companyUpdatePre ++ setCols ++ companyUpdateMid
            ++ ("$" ++ natStr (values.length + 1)) ++ companyUpdatePost)
          = List.range' 1 (values.length + 1)) ∧
    (∀ (jid : Int) (data : List (String × JSValue)),
      data ≠ [] →
      (∀ kv ∈ data, kv.1 ∈ jobUpdatableKeys) →
      ∃ setCols values,
        sqlForPartialUpdate data jobUpdateMap = .ok (setCols, values) ∧
        jobUpdate jid data
          = .ok (jobUpdatePre ++ setCols ++ jobUpdateMid
                   ++ ("$" ++ natStr (values.length + 1)) ++ jobUpdatePost,
                 values ++ [JSValue.num jid]) ∧
        values.length = data.length ∧
        (values ++ [JSValue.num jid])[values.length]? = some (JSValue.num jid) ∧
        "id" ∉ data.map (fun kv => colNameOr jobUpdateMap kv.1) ∧
        phIndices (jobUpdatePre ++ setCols ++ jobUpdateMid
            ++ ("$" ++ natStr (values.length + 1)) ++ jobUpdatePost)
          = List.range' 1 (values.length + 1)) := by
  constructor
  · intro handle data hne hkeys
    refine ⟨_, _, sqlForPartialUpdate_ne_nil data companyUpdateMap hne, ?_, ?_, ?_, ?_, ?_⟩
    · simp [companyUpdate, sqlForPartialUpdate_ne_nil data companyUpdateMap hne]
    · simp
    · exact List.getElem?_concat_length _ _
    · intro hmem
      obtain ⟨kv, hkv, heq⟩ := List.mem_map.mp hmem
      have hk := hkeys kv hkv
      simp [companyUpdatableKeys] at hk
      rcases hk with h | h | h | h <;> rw [h] at heq <;> exact absurd heq (by decide)
    · have hkd : ∀ k ∈ data.map Prod.fst, '$' ∉ (colNameOr companyUpdateMap k).data := by
        intro k hk
        obtain ⟨kv, hkv, rfl⟩ := List.mem_map.mp hk
        have hk2 := hkeys kv hkv
        simp [companyUpdatableKeys] at hk2
        rcases hk2 with h | h | h | h <;> rw [h] <;> decide
      have hkne : data.map Prod.fst ≠ [] := by simp [hne]
      have := phIndices_update_stmt companyUpdatePre companyUpdateMid companyUpdatePost
        (data.map Prod.fst) companyUpdateMap (by decide) (by decide) (by decide) (by decide)
        (by decide) (by decide) (by decide) hkd hkne
      simpa using this
  · intro jid data hne hkeys
    refine ⟨_, _, sqlForPartialUpdate_ne_nil data jobUpdateMap hne, ?_, ?_, ?_, ?_, ?_⟩
    · simp [jobUpdate, sqlForPartialUpdate_ne_nil data jobUpdateMap hne]
    · simp
    · exact List.getElem?_concat_length _ _
    · intro hmem
      obtain ⟨kv, hkv, heq⟩ := List.mem_map.mp hmem
      have hk := hkeys kv hkv
      simp [jobUpdatableKeys] at hk
      rcases hk with h | h | h <;> rw [h] at heq <;> exact absurd heq (by decide)
    · have hkd : ∀ k ∈ data.map Prod.fst, '$' ∉ (colNameOr jobUpdateMap k).data := by
        intro k hk
        obtain ⟨kv, hkv, rfl⟩ := List.mem_map.mp hk
        have hk2 := hkeys kv hkv
        simp [jobUpdatableKeys] at hk2
        rcases hk2 with h | h | h <;> rw [h] <;> decide
      have hkne : data.map Prod.fst ≠ [] := by simp [hne]
      have := phIndices_update_stmt jobUpdatePre jobUpdateMid jobUpdatePost
        (data.map Prod.fst) jobUpdateMap (by decide) (by decide) (by decide) (by decide)
        (by decide) (by decide) (by decide) hkd hkne
      simpa using this

/-- Witness for C10 at a one-field company update and a one-field job
update. -/
theorem update_key_only_in_where_witness :
    (∃ setCols values,
      sqlForPartialUpdate [("name", JSValue.str "NewCo")] companyUpdateMap
        = .ok (setCols, values) ∧
      companyUpdate "c1" [("name", JSValue.str "NewCo")]
        = .ok (companyUpdatePre ++ setCols ++ companyUpdateMid
                 ++ ("$" ++ natStr (values.length + 1)) ++ companyUpdatePost,
               values ++ [JSValue.str "c1"]) ∧
      values.length = [("name", JSValue.str "NewCo")].length ∧
      (values ++ [JSValue.str "c1"])[values.length]? = some (JSValue.str "c1") ∧
      "handle" ∉ [("name", JSValue.str "NewCo")].map
        (fun kv => colNameOr companyUpdateMap kv.1) ∧
      phIndices (companyUpdatePre ++ setCols ++ companyUpdateMid
          ++ ("$" ++ natStr (values.length + 1)) ++ companyUpdatePost)
        = List.range' 1 (values.length + 1)) ∧
    (∃ setCols values,
      sqlForPartialUpdate [("title", JSValue.str "Updated Title")] jobUpdateMap
        = .ok (setCols, values) ∧
      jobUpdate 7 [("title", JSValue.str "Updated Title")]
        = .ok (jobUpdatePre ++ setCols ++ jobUpdateMid
                 ++ ("$" ++ natStr (values.length + 1)) ++ jobUpdatePost,
               values ++ [JSValue.num 7]) ∧
      values.length = [("title", JSValue.str "Updated Title")].length ∧
      (values ++ [JSValue.num 7])[values.length]? = some (JSValue.num 7) ∧
      "id" ∉ [("title", JSValue.str "Updated Title")].map
        (fun kv => colNameOr jobUpdateMap kv.1) ∧
      phIndices (jobUpdatePre ++ setCols ++ jobUpdateMid
          ++ ("$" ++ natStr (values.length + 1)) ++ jobUpdatePost)
        = List.range' 1 (values.length + 1)) :=
  ⟨update_key_only_in_where.1 "c1" [("name", JSValue.str "NewCo")] (by decide) (by decide),
   update_key_only_in_where.2 7 [("title", JSValue.str "Updated Title")] (by decide) (by decide)⟩

/-- Concrete evaluation: the spec scenario for a two-field partial update. -/
theorem sanity_compileUpdate_two_fields :
    sqlForPartialUpdate [("firstName", JSValue.str "Aliya"), ("age", JSValue.num 32)]
      [("firstName", "first_name")]
    = .ok ("\"first_name\"=$1, \"age\"=$2", [JSValue.str "Aliya", JSValue.num 32]) := rfl

/-- Concrete evaluation: the placeholder scanner on a two-fragment clause. -/
theorem sanity_phIndices_two_fragments :
    phIndices "\"first_name\"=$1, \"age\"=$2" = [1, 2] := rfl

/-- Concrete evaluation: the scanner over a full company update statement. -/
theorem sanity_phIndices_update_statement :
    phIndices (companyUpdatePre ++ "\"name\"=$1" ++ companyUpdateMid ++ "$2" ++ companyUpdatePost)
    = [1, 2] := rfl

/-- Concrete evaluation: the empty update object raises the empty-update
error. -/
theorem sanity_compileUpdate_empty :
    sqlForPartialUpdate ([] : List (String × JSValue)) []
    = .error (.badRequestError "No data") := rfl

/-- Concrete evaluation: the spec scenario of a three-filter company
listing. -/
theorem sanity_companyFindAll_three_filters :
    companyFindAll { minEmployees := some 10, maxEmployees := some 50, name := some "inc" }
    = (companyBaseSelect ++ " WHERE num_employees >= $1 AND num_employees <= $2 AND LOWER(name) LIKE $3 ORDER BY name",
       [JSValue.num 10, JSValue.num 50, JSValue.str "%inc%"]) := rfl

/-- Concrete evaluation: a salary bound combined with the equity filter. -/
theorem sanity_jobFindAll_two_filters :
    jobFindAll { minSalary := some 120000, hasEquity := some (JSValue.bool true) }
    = (jobBaseSelect ++ " WHERE salary >= $1 AND equity::float > 0 ORDER BY title",
       [JSValue.num 120000]) := rfl

/-- Concrete evaluation: the unfiltered job listing. -/
theorem sanity_jobFindAll_unfiltered :
    jobFindAll {} = (jobBaseSelect ++ " ORDER BY title", []) := rfl
